import Mathlib

/-!
Verification development for the FactTrace hackathon repository.

The repository has two verifiable components:

* the streaming verdict consumer, `runVerification` in
  `frontend/src/app/page.tsx`: it reads a server-sent-event byte stream,
  buffers partial reads, splits the buffer at the blank-line delimiter
  `"\n\n"` (JavaScript `buffer.split('\n\n')` followed by
  `buffer = lines.pop() || ''`), and folds each complete record into a
  held `VerdictPayload`;
* the verdict store, `POST` and `GET` in
  `frontend/src/app/api/verdict/route.ts`: an in-memory latest verdict
  with an optional file mirror.

Modelling conventions.  Chunks are modelled as `List Char` (the
`TextDecoder` with `stream: true` is a JavaScript builtin that makes byte
chunking transparent at the character level).  `JSON.parse` is a
JavaScript builtin, not repository code, so the parser for a record's
payload is a parameter `parse : List Char → Option SSEvent`; `none`
models a `JSON.parse` exception (caught at lines 150-152 of page.tsx) and
`some e` a successfully decoded tagged event.  JavaScript numbers carry
no arithmetic in this code, so `confidence` is modelled as `Rat`.
-/

/-- Decision enum from `frontend/src/types/verdict.ts`:
`'faithful' | 'mutated' | 'uncertain'`. -/
inductive Decision where
  | faithful
  | mutated
  | uncertain
deriving DecidableEq, Repr

/-- AgentMessage from `frontend/src/types/verdict.ts`. -/
structure AgentMessage where
  agent : String
  message : String
  timestamp : Option String
deriving DecidableEq, Repr

/-- Analysis object from `frontend/src/types/verdict.ts` (optional field
`analysis` of `VerdictPayload`). -/
structure Analysis where
  claim_analysis : String
  truth_analysis : String
deriving DecidableEq, Repr

/-- VerdictPayload from `frontend/src/types/verdict.ts`. -/
structure VerdictPayload where
  claim : String
  truth : String
  conversation : List AgentMessage
  summary : String
  decision : Decision
  confidence : Option Rat
  disclaimers : Option (List String)
  analysis : Option Analysis
deriving DecidableEq, Repr

/-- A successfully JSON-decoded stream event, as dispatched on
`event.type` at lines 128-149 of page.tsx.  `other` covers every tag
that is none of `agent`, `analysis`, `verdict` (the if-chain falls
through and the record is ignored). -/
inductive SSEvent where
  | agent (m : AgentMessage)
  | analysis (a : Analysis)
  | verdict (v : VerdictPayload)
  | other (tag : String)
deriving DecidableEq, Repr

/-- Outcome of looking at one complete record (one element of `lines`
in page.tsx): the line does not start with `"data: "` (line 124), the
JSON payload fails to parse (catch at line 150), or a decoded event. -/
inductive LineResult where
  | noData
  | malformed
  | event (e : SSEvent)
deriving DecidableEq, Repr

/-- Greedy leftmost non-overlapping split of a character list at the
two-character delimiter newline-newline: JavaScript string `split` with
separator `"\n\n"`, as performed at line 120 of page.tsx. -/
def splitNN : List Char → List (List Char)
  | [] => [[]]
  | [c] => [[c]]
  | c :: d :: rest =>
    if c = '\n' ∧ d = '\n' then
      [] :: splitNN rest
    else
      (splitNN (d :: rest)).modifyHead (fun s => c :: s)

/-- Whether a character list contains two consecutive newlines. -/
def hasNN : List Char → Bool
  | [] => false
  | [_] => false
  | c :: d :: rest => (c = '\n' && d = '\n') || hasNN (d :: rest)

/-- Whether a record is cleanly framed: it contains no two consecutive
newlines and does not end with a newline, so that appending the
delimiter after it cannot create an earlier delimiter occurrence.
Expressed compactly: the record followed by one newline still has no
two consecutive newlines. -/
def cleanRecord (r : List Char) : Bool :=
  hasNN (r ++ ['\n'])

/-- The record delimiter of the event-stream framing: a blank line. -/
def delimNN : List Char := ['\n', '\n']

/-- The fixed record header checked by `line.startsWith('data: ')` at
line 124 of page.tsx. -/
def dataHeader : List Char := "data: ".toList

/-- Decoding of one complete record, lines 124-152 of page.tsx: lines
not starting with `"data: "` are skipped; otherwise the rest of the
line (`line.slice(6)`) goes through the JSON decoder `parse`, whose
failure is the caught malformed-record case. -/
def decodeLine (parse : List Char → Option SSEvent) (line : List Char) :
    LineResult :=
  if dataHeader.isPrefixOf line then
    match parse (line.drop 6) with
    | none => LineResult.malformed
    | some e => LineResult.event e
  else
    LineResult.noData

/-- The event dispatch of lines 128-149 of page.tsx, acting on the held
`verdict` React state (an `Option VerdictPayload`, `null` initially):
an `agent` event appends its message to `conversation` (no-op on a
`null` verdict, line 131); an `analysis` event replaces the `analysis`
field wholesale (made `null` verdict stay `null`, line 140); a
`verdict` event replaces the entire held value with its payload
(line 148); any other tag falls through the if-chain and changes
nothing. -/
def applyEvent (prev : Option VerdictPayload) (e : SSEvent) :
    Option VerdictPayload :=
  match e with
  | SSEvent.agent m =>
    match prev with
    | none => none
    | some p => some { p with conversation := p.conversation ++ [m] }
  | SSEvent.analysis a =>
    match prev with
    | none => none
    | some p => some { p with analysis := some a }
  | SSEvent.verdict v => some v
  | SSEvent.other _ => prev

/-- Effect of one complete record on the held verdict: a non-data line
and a malformed record both leave the state unchanged (the latter is
only logged, line 151 of page.tsx); a decoded event is applied. -/
def processLine (prev : Option VerdictPayload) (r : LineResult) :
    Option VerdictPayload :=
  match r with
  | LineResult.noData => prev
  | LineResult.malformed => prev
  | LineResult.event e => applyEvent prev e

/-- Folding a whole sequence of record outcomes into the held verdict. -/
def foldEvents (prev : Option VerdictPayload) (rs : List LineResult) :
    Option VerdictPayload :=
  rs.foldl processLine prev

/-- State of the streaming consumer loop (lines 113-155 of page.tsx):
the held verdict, the trace of decoded records in processing order
(the observable sequence of parsed events), and the carry-over buffer
of not-yet-terminated input. -/
structure StreamState where
  verdict : Option VerdictPayload
  events : List LineResult
  buffer : List Char
deriving DecidableEq, Repr

/-- One iteration of the read loop, lines 119-154 of page.tsx: append
the chunk to the buffer, split at the blank-line delimiter, pop the
trailing (possibly empty) unterminated segment back into the buffer,
and process each complete record in order. -/
def feedChunk (parse : List Char → Option SSEvent) (st : StreamState)
    (chunk : List Char) : StreamState :=
  let segs := splitNN (st.buffer ++ chunk)
  let complete := segs.dropLast
  { verdict := (complete.map (decodeLine parse)).foldl processLine st.verdict
    events := st.events ++ complete.map (decodeLine parse)
    buffer := segs.getLastD [] }

/-- The whole read loop: feed every delivered chunk in order; on clean
close (`done`) the loop just breaks, so whatever remains in the buffer
is dropped unprocessed (lines 116-117 of page.tsx). -/
def runStream (parse : List Char → Option SSEvent) (st : StreamState)
    (chunks : List (List Char)) : StreamState :=
  chunks.foldl (feedChunk parse) st

/-- The consumer's state at the start of the loop: `buffer` is the
empty string (line 113 of page.tsx) and no record has been processed. -/
def initStream (v : Option VerdictPayload) : StreamState :=
  { verdict := v, events := [], buffer := [] }

/-- The verdict seeded at lines 80-88 of page.tsx the instant a
verification request is issued: the input claim and truth, empty
conversation, empty summary, decision `uncertain`, confidence `0`,
empty disclaimers, no analysis. -/
def seedVerdict (claim truth : String) : VerdictPayload :=
  { claim := claim
    truth := truth
    conversation := []
    summary := ""
    decision := Decision.uncertain
    confidence := some 0
    disclaimers := some []
    analysis := none }

/-- JavaScript `a || b` on a possibly-absent string `a`: the default is
taken when `a` is `undefined` or the empty string (both falsy). Models
`err.detail || 'Verification failed'` at line 99 of page.tsx. -/
def jsOrElse (a : Option String) (dflt : String) : String :=
  match a with
  | none => dflt
  | some s => if s = "" then dflt else s

/-- Outcome of the `fetch` at lines 91-95 of page.tsx, as observed by
the consumer.  `netError` is a thrown fetch (caught at line 156).
`errResponse d` is a non-ok status; `d = none` means the error body
itself failed to JSON-parse (`res.json()` throws, reaching the same
outer catch), `d = some detail` carries the optional `detail` field.
`okResponse hasBody chunks` is a success status; `hasBody = false`
models a missing readable body (line 107), otherwise `chunks` is the
sequence of delivered chunks up to a clean close. -/
inductive FetchOutcome where
  | netError
  | errResponse (detail : Option (Option String))
  | okResponse (hasBody : Bool) (chunks : List (List Char))

/-- Component state touched by `runVerification`: the held verdict, the
error banner, and the streaming-active flag (`verifying`). -/
structure SessionState where
  verdict : Option VerdictPayload
  error : Option String
  verifying : Bool
deriving Repr

/-- JavaScript `String.prototype.trim`, a builtin, modelled executably:
drop whitespace characters from both ends of the character list. -/
def jsTrim (s : String) : List Char :=
  ((s.data.dropWhile Char.isWhitespace).reverse.dropWhile
    Char.isWhitespace).reverse

/-- The message set by the outer catch handler at line 157 of page.tsx. -/
def connectFailMsg : String :=
  "Failed to connect to backend. Is it running on port 8000?"

/-- The `runVerification` handler of page.tsx, lines 71-161, as a
function of the prior component state, the form inputs, and the network
outcome.  The empty-input guard (lines 72-75) returns early touching
only the error banner; otherwise the seeded verdict is installed, the
error banner is cleared, and the outcome is handled: non-ok status
surfaces `err.detail || 'Verification failed'` (line 99), a missing
body surfaces a fixed message (line 108), thrown fetches reach the
outer catch (line 157), and a readable body runs the streaming loop.
The `finally` at line 159 clears `verifying` in every path. -/
def runVerification (parse : List Char → Option SSEvent)
    (st : SessionState) (claim truth : String) (outcome : FetchOutcome) :
    SessionState :=
  if jsTrim claim = [] ∨ jsTrim truth = [] then
    { st with error := some "Please enter both a claim and a truth" }
  else
    let seeded := seedVerdict claim truth
    match outcome with
    | FetchOutcome.netError =>
      { verdict := some seeded, error := some connectFailMsg, verifying := false }
    | FetchOutcome.errResponse none =>
      { verdict := some seeded, error := some connectFailMsg, verifying := false }
    | FetchOutcome.errResponse (some d) =>
      { verdict := some seeded
        error := some (jsOrElse d "Verification failed")
        verifying := false }
    | FetchOutcome.okResponse false _ =>
      { verdict := some seeded
        error := some "Failed to read stream"
        verifying := false }
    | FetchOutcome.okResponse true chunks =>
      { verdict := (runStream parse (initStream (some seeded)) chunks).verdict
        error := none
        verifying := false }

/-- Runtime shape of a `POST /verdict` request body
(`frontend/src/app/api/verdict/route.ts`): each field the validation at
line 32 looks at may be absent (`none`). Fields the route never
inspects (`confidence`, `disclaimers`) are omitted.  `decision` is kept
as a raw string since the route only tests its presence. -/
structure PostBody where
  claim : Option String
  truth : Option String
  conversation : Option (List AgentMessage)
  summary : Option String
  decision : Option String
deriving DecidableEq, Repr

/-- JavaScript falsiness of a possibly-absent string field: `undefined`
and the empty string are falsy. -/
def strFalsy : Option String → Bool
  | none => true
  | some s => s == ""

/-- JavaScript falsiness of a possibly-absent array field: `undefined`
is falsy but every array, including the empty array, is truthy. -/
def arrayFalsy : Option (List AgentMessage) → Bool
  | none => true
  | some _ => false

/-- State of the file mirror at `RESULT_FILE_PATH`: no file
(`existsSync` false), an existing file whose read or JSON parse throws,
or an existing readable file holding a stored body. -/
inductive FileState where
  | absent
  | unreadable
  | stored (b : PostBody)
deriving DecidableEq, Repr

/-- The store's state: the module-level `latestVerdict` variable
(line 22 of route.ts) plus the file mirror. -/
structure StoreState where
  latestVerdict : Option PostBody
  file : FileState
deriving DecidableEq, Repr

/-- Observable shape of a route response: HTTP status, the verdict JSON
body when one is returned, the `error` field when present, and the
`message` field of the success body. -/
structure ApiResponse where
  status : Nat
  verdictBody : Option PostBody
  errorMsg : Option String
  successMsg : Option String
deriving DecidableEq, Repr

/-- A `POST /verdict` request as the route sees it: either
`request.json()` throws (caught at line 49 of route.ts) or it yields a
body. -/
inductive PostRequest where
  | badJson
  | jsonBody (b : PostBody)

/-- The `POST` handler of route.ts, lines 27-55.  A JSON parse failure
is a 400 with an `error` field.  The validation at line 32 rejects with
a 400 when any of `claim`, `truth`, `conversation`, `summary`,
`decision` is falsy, leaving the store untouched.  Otherwise the
in-memory copy is replaced, the body is best-effort mirrored to the
file (`fileWriteOk = false` models a thrown `writeFileSync`, caught and
only logged at line 44), and a 200 success body is returned. -/
def POST (st : StoreState) (req : PostRequest) (fileWriteOk : Bool) :
    ApiResponse × StoreState :=
  match req with
  | PostRequest.badJson =>
    ({ status := 400
       verdictBody := none
       errorMsg := some "Invalid JSON payload"
       successMsg := none }, st)
  | PostRequest.jsonBody b =>
    if strFalsy b.claim || strFalsy b.truth || arrayFalsy b.conversation ||
        strFalsy b.summary || strFalsy b.decision then
      ({ status := 400
         verdictBody := none
         errorMsg := some
           "Missing required fields: claim, truth, conversation, summary, decision"
         successMsg := none }, st)
    else
      ({ status := 200
         verdictBody := none
         errorMsg := none
         successMsg := some "Verdict received" },
       { latestVerdict := some b
         file := if fileWriteOk then FileState.stored b else st.file })

/-- The `GET` handler of route.ts, lines 57-78: return the parsed file
content when the file exists and is readable (the file is tried first);
a read or parse failure is caught and falls through; then fall back to
the in-memory copy; with neither, a 404 carrying an `error` field. -/
def GET (st : StoreState) : ApiResponse :=
  match st.file with
  | FileState.stored b =>
    { status := 200, verdictBody := some b, errorMsg := none, successMsg := none }
  | _ =>
    match st.latestVerdict with
    | some v =>
      { status := 200, verdictBody := some v, errorMsg := none, successMsg := none }
    | none =>
      { status := 404
        verdictBody := none
        errorMsg := some "No verdict available"
        successMsg := none }

/-- Concrete demo decoder used to instantiate theorems that abstract
over the JSON builtin: it recognises two fixed agent payloads and fails
on everything else. -/
def demoMsgA : AgentMessage :=
  { agent := "Fact-Checker", message := "looks right", timestamp := none }

/-- Second fixed demo message. -/
def demoMsgB : AgentMessage :=
  { agent := "Sceptic", message := "doubt it", timestamp := none }

/-- Demo decoder: maps two fixed payload texts to agent events and
fails on every other payload. -/
def demoParse (l : List Char) : Option SSEvent :=
  if l = "[A]".toList then some (SSEvent.agent demoMsgA)
  else if l = "[B]".toList then some (SSEvent.agent demoMsgB)
  else none

/-- Concrete verdict value used to instantiate theorems. -/
def demoVerdict : VerdictPayload :=
  { claim := "c"
    truth := "t"
    conversation := []
    summary := "s"
    decision := Decision.uncertain
    confidence := none
    disclaimers := none
    analysis := none }

/-- Concrete prior component state used to instantiate theorems. -/
def demoSession : SessionState :=
  { verdict := none, error := none, verifying := false }

/-- Concrete store body with every required field present and truthy. -/
def demoBody : PostBody :=
  { claim := some "c"
    truth := some "t"
    conversation := some []
    summary := some "s"
    decision := some "faithful" }

/-- Concrete store state with nothing held in memory and no file. -/
def demoStore : StoreState :=
  { latestVerdict := none, file := FileState.absent }

/-- Concrete body missing its `decision` field. -/
def demoNoDecision : PostBody :=
  { demoBody with decision := none }

/-- Concrete body whose `claim` is present but the empty string. -/
def demoEmptyClaim : PostBody :=
  { demoBody with claim := some "" }

/-- Concrete store state holding both a readable file copy and a
different in-memory copy. -/
def demoStoreFile : StoreState :=
  { latestVerdict := some demoNoDecision, file := FileState.stored demoBody }

/-- Concrete store state with no file but an in-memory copy. -/
def demoStoreMem : StoreState :=
  { latestVerdict := some demoBody, file := FileState.absent }

theorem splitNN_ne_nil (l : List Char) : splitNN l ≠ [] := by
  induction l using splitNN.induct with
  | case1 => simp [splitNN]
  | case2 c => simp [splitNN]
  | case3 c d rest h ih =>
    rw [splitNN, if_pos h]
    simp
  | case4 c d rest h ih =>
    rw [splitNN, if_neg h]
    cases hs : splitNN (d :: rest) with
    | nil => exact absurd hs ih
    | cons s ss => simp [List.modifyHead]

theorem getLastD_irrel {α : Type} (l : List α) (h : l ≠ []) (d d' : α) :
    l.getLastD d = l.getLastD d' := by
  cases l with
  | nil => exact absurd rfl h
  | cons a t => rw [List.getLastD_cons, List.getLastD_cons]

theorem dropLast_append_ne_nil {α : Type} (A B : List α) (h : B ≠ []) :
    (A ++ B).dropLast = A ++ B.dropLast := by
  induction A with
  | nil => simp
  | cons a A ih =>
    have hAB : A ++ B ≠ [] := by
      intro hc
      exact h (List.append_eq_nil.mp hc).2
    rw [List.cons_append, List.dropLast_cons_of_ne_nil hAB, ih, List.cons_append]

theorem getLastD_append_ne_nil {α : Type} (A B : List α) (h : B ≠ [])
    (d : α) : (A ++ B).getLastD d = B.getLastD d := by
  induction A generalizing d with
  | nil => simp
  | cons a A ih =>
    rw [List.cons_append, List.getLastD_cons, ih]
    cases B with
    | nil => exact absurd rfl h
    | cons b t => rw [List.getLastD_cons, List.getLastD_cons]

theorem splitNN_cons2_pos (rest : List Char) :
    splitNN ('\n' :: '\n' :: rest) = [] :: splitNN rest := by
  rw [splitNN]
  simp

theorem splitNN_cons2_neg (c d : Char) (rest : List Char)
    (h : ¬(c = '\n' ∧ d = '\n')) :
    splitNN (c :: d :: rest) =
      (splitNN (d :: rest)).modifyHead (fun s => c :: s) := by
  rw [splitNN, if_neg h]

theorem splitNN_singleton (l s : List Char) (h : splitNN l = [s]) :
    s = l := by
  induction l using splitNN.induct generalizing s with
  | case1 =>
    rw [splitNN] at h
    simp only [List.cons.injEq, and_true] at h
    exact h.symm
  | case2 c =>
    rw [splitNN] at h
    simp only [List.cons.injEq, and_true] at h
    exact h.symm
  | case3 c d rest hc ih =>
    obtain ⟨hc1, hc2⟩ := hc
    subst hc1; subst hc2
    rw [splitNN_cons2_pos] at h
    simp only [List.cons.injEq] at h
    exact absurd h.2 (splitNN_ne_nil rest)
  | case4 c d rest hc ih =>
    rw [splitNN_cons2_neg c d rest hc] at h
    cases hs : splitNN (d :: rest) with
    | nil => exact absurd hs (splitNN_ne_nil _)
    | cons s0 ss =>
      rw [hs] at h
      simp only [List.modifyHead, List.cons.injEq] at h
      obtain ⟨h1, h2⟩ := h
      subst h2
      have hs0 : s0 = d :: rest := ih s0 (by rw [hs])
      rw [← h1, hs0]

theorem splitNN_append (x y : List Char) :
    splitNN (x ++ y) =
      (splitNN x).dropLast ++ splitNN ((splitNN x).getLastD [] ++ y) := by
  induction x using splitNN.induct generalizing y with
  | case1 => simp [splitNN]
  | case2 c => simp [splitNN]
  | case3 c d rest hc ih =>
    obtain ⟨hc1, hc2⟩ := hc
    subst hc1; subst hc2
    have hne := splitNN_ne_nil rest
    simp only [List.cons_append]
    rw [splitNN_cons2_pos (rest ++ y), splitNN_cons2_pos rest,
      List.dropLast_cons_of_ne_nil hne, List.getLastD_cons, ih]
    simp only [List.cons_append]
  | case4 c d rest hc ih =>
    simp only [List.cons_append]
    rw [splitNN_cons2_neg c d (rest ++ y) hc, splitNN_cons2_neg c d rest hc,
      show (d :: (rest ++ y)) = (d :: rest) ++ y from rfl, ih]
    cases hs : splitNN (d :: rest) with
    | nil => exact absurd hs (splitNN_ne_nil _)
    | cons s0 ss =>
      cases ss with
      | nil =>
        have hs0 : s0 = d :: rest := splitNN_singleton _ _ hs
        subst hs0
        simp only [List.dropLast_single, List.getLastD_cons, List.getLastD_nil,
          List.modifyHead, List.nil_append, List.cons_append]
        rw [splitNN_cons2_neg c d (rest ++ y) hc]
        cases splitNN (d :: (rest ++ y)) <;> rfl
      | cons s1 ss' =>
        simp only [List.modifyHead, List.dropLast_cons₂, List.getLastD_cons,
          List.cons_append]

theorem feedChunk_append (parse : List Char → Option SSEvent)
    (st : StreamState) (c1 c2 : List Char) :
    feedChunk parse (feedChunk parse st c1) c2 =
      feedChunk parse st (c1 ++ c2) := by
  have h2 := splitNN_ne_nil ((splitNN (st.buffer ++ c1)).getLastD [] ++ c2)
  simp only [feedChunk]
  rw [show st.buffer ++ (c1 ++ c2) = st.buffer ++ c1 ++ c2 from
      (List.append_assoc st.buffer c1 c2).symm,
    splitNN_append (st.buffer ++ c1) c2,
    dropLast_append_ne_nil _ _ h2, getLastD_append_ne_nil _ _ h2]
  simp [List.map_append, List.foldl_append, List.append_assoc]

theorem runStream_eq_join (parse : List Char → Option SSEvent)
    (st : StreamState) (c : List Char) (cs : List (List Char)) :
    runStream parse st (c :: cs) = feedChunk parse st (c :: cs).flatten := by
  induction cs generalizing st c with
  | nil => simp [runStream, List.flatten]
  | cons d cs ih =>
    have step : runStream parse st (c :: d :: cs) =
        runStream parse (feedChunk parse st c) (d :: cs) := by
      simp [runStream]
    rw [step, ih, feedChunk_append]
    simp [List.flatten]

/-- C1: feeding a byte stream to the streaming consumer as an arbitrary
sequence of chunks (chunk boundaries may fall inside a record or inside
the double-newline delimiter) yields the same sequence of parsed events,
and the same final held Verdict, as feeding the concatenation as one
single whole chunk. -/
theorem c1_chunk_boundary_invariance (parse : List Char → Option SSEvent)
    (v : Option VerdictPayload) (chunks : List (List Char)) :
    (runStream parse (initStream v) chunks).events =
        (runStream parse (initStream v) [chunks.flatten]).events ∧
      (runStream parse (initStream v) chunks).verdict =
        (runStream parse (initStream v) [chunks.flatten]).verdict := by
  cases chunks with
  | nil =>
    constructor <;>
      simp [runStream, initStream, feedChunk, splitNN, List.flatten]
  | cons c cs =>
    rw [runStream_eq_join]
    have h : runStream parse (initStream v) [(c :: cs).flatten] =
        feedChunk parse (initStream v) ((c :: cs).flatten) := by
      simp [runStream]
    rw [h]
    exact ⟨rfl, rfl⟩

theorem runStream_terminated_spec
    (parse : List Char → Option SSEvent) (v : Option VerdictPayload)
    (chunks : List (List Char)) :
    (runStream parse (initStream v) chunks).verdict =
        (((splitNN chunks.flatten).dropLast.map (decodeLine parse)).foldl
          processLine v) ∧
      (runStream parse (initStream v) chunks).buffer =
        (splitNN chunks.flatten).getLastD [] := by
  cases chunks with
  | nil =>
    constructor <;>
      simp [runStream, initStream, List.flatten, splitNN]
  | cons c cs =>
    rw [runStream_eq_join]
    constructor <;> simp [feedChunk, initStream]

/-- C9: on clean close, bytes remaining in the buffer that are not yet
terminated by the blank-line delimiter are discarded without being
parsed.  The final held verdict is the fold over exactly the
delimiter-terminated records (`dropLast` of the split), while the
trailing unterminated segment only ever sits in the buffer, which no
code path processes after the reader signals done. -/
theorem c9_unterminated_tail_discarded
    (parse : List Char → Option SSEvent) (v : Option VerdictPayload)
    (chunks : List (List Char)) :
    (runStream parse (initStream v) chunks).verdict =
        (((splitNN chunks.flatten).dropLast.map (decodeLine parse)).foldl
          processLine v) ∧
      (runStream parse (initStream v) chunks).buffer =
        (splitNN chunks.flatten).getLastD [] :=
  runStream_terminated_spec parse v chunks

theorem foldEvents_agents (p : VerdictPayload) (msgs : List AgentMessage) :
    foldEvents (some p)
        (msgs.map (fun m => LineResult.event (SSEvent.agent m))) =
      some { p with conversation := p.conversation ++ msgs } := by
  induction msgs generalizing p with
  | nil => simp [foldEvents]
  | cons m ms ih =>
    have step : processLine (some p) (LineResult.event (SSEvent.agent m)) =
        some { p with conversation := p.conversation ++ [m] } := rfl
    simp only [List.map_cons, foldEvents, List.foldl_cons, step]
    have := ih { p with conversation := p.conversation ++ [m] }
    simp only [foldEvents] at this
    rw [this]
    simp [List.append_assoc]

/-- C3: for every sequence of well-formed agent events processed in one
session, the held conversation equals the prior conversation followed by
the events' payloads in arrival order, with no drops and no duplicates;
and the conversation only grows: processing any further agent events
only appends at the end, never reordering or removing existing
messages. -/
theorem c3_agent_events_in_order (p : VerdictPayload)
    (msgs extra : List AgentMessage) :
    foldEvents (some p)
        (msgs.map (fun m => LineResult.event (SSEvent.agent m))) =
      some { p with conversation := p.conversation ++ msgs } ∧
    (foldEvents (some p)
        ((msgs ++ extra).map (fun m => LineResult.event (SSEvent.agent m)))).map
        (fun q => q.conversation) =
      some ((p.conversation ++ msgs) ++ extra) := by
  refine ⟨foldEvents_agents p msgs, ?_⟩
  rw [foldEvents_agents p (msgs ++ extra)]
  simp [List.append_assoc]

/-- C2: a `verdict` event arriving after N `agent` events replaces the
held Verdict wholesale with the event's payload: the held value becomes
exactly the payload, so the held conversation length equals the
payload's conversation length (not N plus it), and no prior incremental
state survives. -/
theorem c2_verdict_event_replaces_wholesale (p nv : VerdictPayload)
    (msgs : List AgentMessage) :
    foldEvents (some p)
        (msgs.map (fun m => LineResult.event (SSEvent.agent m)) ++
          [LineResult.event (SSEvent.verdict nv)]) =
      some nv ∧
    (foldEvents (some p)
        (msgs.map (fun m => LineResult.event (SSEvent.agent m)) ++
          [LineResult.event (SSEvent.verdict nv)])).map
        (fun q => q.conversation.length) =
      some nv.conversation.length := by
  have h : foldEvents (some p)
      (msgs.map (fun m => LineResult.event (SSEvent.agent m)) ++
        [LineResult.event (SSEvent.verdict nv)]) = some nv := by
    simp only [foldEvents, List.foldl_append]
    rfl
  exact ⟨h, by rw [h]; rfl⟩

/-- C8: a well-formed record whose type tag is none of `agent`,
`analysis`, `verdict` is ignored without aborting the stream: the held
Verdict is left entirely unchanged by that record, and a subsequent
record is still processed normally. -/
theorem c8_unknown_tag_ignored (p : VerdictPayload) (tag : String)
    (m : AgentMessage) :
    processLine (some p) (LineResult.event (SSEvent.other tag)) = some p ∧
    foldEvents (some p)
        [LineResult.event (SSEvent.other tag),
          LineResult.event (SSEvent.agent m)] =
      some { p with conversation := p.conversation ++ [m] } := by
  exact ⟨rfl, rfl⟩


theorem splitNN_clean (r : List Char) (h : cleanRecord r = false)
    (rest : List Char) :
    splitNN (r ++ '\n' :: '\n' :: rest) = r :: splitNN rest := by
  induction r with
  | nil => simpa using splitNN_cons2_pos rest
  | cons a r ih =>
    cases r with
    | nil =>
      have ha : ¬ a = '\n' := by
        simpa [cleanRecord, hasNN] using h
      rw [List.cons_append, List.nil_append,
        splitNN_cons2_neg a '\n' ('\n' :: rest) (by simp [ha]),
        splitNN_cons2_pos rest]
      rfl
    | cons b r' =>
      have h' : ¬ (a = '\n' ∧ b = '\n') ∧ hasNN (b :: (r' ++ ['\n'])) = false := by
        simpa [cleanRecord, hasNN, Bool.or_eq_false_iff, List.cons_append,
          Bool.and_eq_false_iff, Decidable.not_and_iff_or_not] using h
      have hr : cleanRecord (b :: r') = false := by
        simpa [cleanRecord] using h'.2
      rw [List.cons_append, List.cons_append,
        splitNN_cons2_neg a b (r' ++ '\n' :: '\n' :: rest) h'.1,
        show b :: (r' ++ '\n' :: '\n' :: rest) =
          (b :: r') ++ '\n' :: '\n' :: rest from rfl,
        ih hr]
      rfl

theorem decodeLine_header (parse : List Char → Option SSEvent)
    (j : List Char) :
    decodeLine parse (dataHeader ++ j) =
      match parse j with
      | none => LineResult.malformed
      | some e => LineResult.event e := by
  have h1 : dataHeader.isPrefixOf (dataHeader ++ j) = true := by
    simp [List.isPrefixOf_iff_prefix]
  have h2 : (dataHeader ++ j).drop 6 = j := by
    have h3 : dataHeader.length = 6 := rfl
    conv_lhs => rw [← h3]
    exact List.drop_left dataHeader j
  cases hp : parse j with
  | none => simp [decodeLine, h1, h2, hp]
  | some e => simp [decodeLine, h1, h2, hp]

/-- C4: a record whose payload is malformed JSON is dropped without
terminating the stream.  An input consisting of a well-formed `agent`
record, then a record whose payload fails to JSON-parse, then another
well-formed `agent` record, yields exactly the two agent messages
appended to the conversation (not zero), and the processed-record trace
shows the malformed record skipped between the two applied events. -/
theorem c4_malformed_record_skipped (parse : List Char → Option SSEvent)
    (v : VerdictPayload) (j1 jb j2 : List Char) (m1 m2 : AgentMessage)
    (hp1 : parse j1 = some (SSEvent.agent m1))
    (hpb : parse jb = none)
    (hp2 : parse j2 = some (SSEvent.agent m2))
    (hc1 : cleanRecord (dataHeader ++ j1) = false)
    (hcb : cleanRecord (dataHeader ++ jb) = false)
    (hc2 : cleanRecord (dataHeader ++ j2) = false) :
    (runStream parse (initStream (some v))
        [(dataHeader ++ j1) ++ delimNN ++ (dataHeader ++ jb) ++ delimNN ++
          (dataHeader ++ j2) ++ delimNN]).verdict =
      some { v with conversation := v.conversation ++ [m1, m2] } ∧
    (runStream parse (initStream (some v))
        [(dataHeader ++ j1) ++ delimNN ++ (dataHeader ++ jb) ++ delimNN ++
          (dataHeader ++ j2) ++ delimNN]).events =
      [LineResult.event (SSEvent.agent m1), LineResult.malformed,
        LineResult.event (SSEvent.agent m2)] := by
  have hsplit : splitNN
      ((dataHeader ++ j1) ++ delimNN ++ (dataHeader ++ jb) ++ delimNN ++
        (dataHeader ++ j2) ++ delimNN) =
      [dataHeader ++ j1, dataHeader ++ jb, dataHeader ++ j2, []] := by
    rw [show (dataHeader ++ j1) ++ delimNN ++ (dataHeader ++ jb) ++ delimNN ++
        (dataHeader ++ j2) ++ delimNN =
        (dataHeader ++ j1) ++ '\n' :: '\n' ::
          ((dataHeader ++ jb) ++ '\n' :: '\n' ::
            ((dataHeader ++ j2) ++ '\n' :: '\n' :: [])) from by
      simp [delimNN, List.append_assoc]]
    rw [splitNN_clean _ hc1, splitNN_clean _ hcb, splitNN_clean _ hc2]
    rfl
  have hd1 := decodeLine_header parse j1
  have hdb := decodeLine_header parse jb
  have hd2 := decodeLine_header parse j2
  rw [hp1] at hd1
  rw [hpb] at hdb
  rw [hp2] at hd2
  constructor
  · have h9 := runStream_terminated_spec parse (some v)
      [(dataHeader ++ j1) ++ delimNN ++ (dataHeader ++ jb) ++ delimNN ++
        (dataHeader ++ j2) ++ delimNN]
    rw [h9.1]
    simp only [List.flatten, List.append_nil, hsplit]
    simp only [List.dropLast, List.map_cons, List.map_nil, hd1, hdb, hd2,
      List.foldl_cons, List.foldl_nil]
    simp [processLine, applyEvent, List.append_assoc]
  · have hr : runStream parse (initStream (some v))
        [(dataHeader ++ j1) ++ delimNN ++ (dataHeader ++ jb) ++ delimNN ++
          (dataHeader ++ j2) ++ delimNN] =
        feedChunk parse (initStream (some v))
          ((dataHeader ++ j1) ++ delimNN ++ (dataHeader ++ jb) ++ delimNN ++
            (dataHeader ++ j2) ++ delimNN) := by
      simp [runStream]
    rw [hr]
    simp only [feedChunk, initStream, List.nil_append, hsplit]
    simp only [List.dropLast, List.map_cons, List.map_nil, hd1, hdb, hd2]

theorem c4_malformed_record_skipped_witness :
    (runStream demoParse (initStream (some demoVerdict))
        [(dataHeader ++ "[A]".toList) ++ delimNN ++
          (dataHeader ++ "oops".toList) ++ delimNN ++
          (dataHeader ++ "[B]".toList) ++ delimNN]).verdict =
      some { demoVerdict with
              conversation := demoVerdict.conversation ++ [demoMsgA, demoMsgB] } ∧
    (runStream demoParse (initStream (some demoVerdict))
        [(dataHeader ++ "[A]".toList) ++ delimNN ++
          (dataHeader ++ "oops".toList) ++ delimNN ++
          (dataHeader ++ "[B]".toList) ++ delimNN]).events =
      [LineResult.event (SSEvent.agent demoMsgA), LineResult.malformed,
        LineResult.event (SSEvent.agent demoMsgB)] :=
  c4_malformed_record_skipped demoParse demoVerdict "[A]".toList
    "oops".toList "[B]".toList demoMsgA demoMsgB (by decide) (by decide)
    (by decide) (by decide) (by decide) (by decide)

/-- C5: when the verification request returns a non-success status
before streaming begins, with a body carrying a non-empty `detail`
string, the consumer terminates with an error whose exposed message
equals that `detail`; the exposed Verdict remains the seeded initial
value (the input claim and truth, empty conversation, decision
`uncertain`), and the streaming-active flag is cleared. -/
theorem c5_error_before_streaming (parse : List Char → Option SSEvent)
    (st : SessionState) (claim truth detail : String)
    (hclaim : ¬ jsTrim claim = []) (htruth : ¬ jsTrim truth = [])
    (hdetail : ¬ detail = "") :
    runVerification parse st claim truth
        (FetchOutcome.errResponse (some (some detail))) =
      { verdict := some (seedVerdict claim truth)
        error := some detail
        verifying := false } := by
  rw [runVerification, if_neg (by simp [hclaim, htruth])]
  simp [jsOrElse, hdetail]

theorem c5_error_before_streaming_witness :
    runVerification demoParse demoSession "a" "b"
        (FetchOutcome.errResponse (some (some "LLM quota exceeded"))) =
      { verdict := some (seedVerdict "a" "b")
        error := some "LLM quota exceeded"
        verifying := false } :=
  c5_error_before_streaming demoParse demoSession "a" "b"
    "LLM quota exceeded" (by decide) (by decide) (by decide)

/-- C6: `POST /verdict` rejects with a 400 response carrying an `error`
field whenever any of `claim`, `truth`, `conversation`, `summary`,
`decision` is absent from the body, leaving the store's previously held
value unchanged; on acceptance it replaces the in-memory copy and
best-effort mirrors the body to the file, and a file-write failure does
not fail the request (the 200 success response holds regardless). -/
theorem c6_post_validation_and_mirror (st : StoreState) (b : PostBody)
    (fw : Bool) :
    ((b.claim = none ∨ b.truth = none ∨ b.conversation = none ∨
        b.summary = none ∨ b.decision = none) →
      (POST st (PostRequest.jsonBody b) fw).1.status = 400 ∧
      ((POST st (PostRequest.jsonBody b) fw).1.errorMsg).isSome = true ∧
      (POST st (PostRequest.jsonBody b) fw).2 = st) ∧
    ((strFalsy b.claim = false ∧ strFalsy b.truth = false ∧
        arrayFalsy b.conversation = false ∧ strFalsy b.summary = false ∧
        strFalsy b.decision = false) →
      (POST st (PostRequest.jsonBody b) fw).1.status = 200 ∧
      (POST st (PostRequest.jsonBody b) fw).1.errorMsg = none ∧
      (POST st (PostRequest.jsonBody b) fw).2.latestVerdict = some b ∧
      (fw = true →
        (POST st (PostRequest.jsonBody b) fw).2.file = FileState.stored b) ∧
      (fw = false →
        (POST st (PostRequest.jsonBody b) fw).2.file = st.file)) := by
  constructor
  · intro h
    rcases h with h | h | h | h | h <;>
      simp [POST, strFalsy, arrayFalsy, h]
  · intro ⟨h1, h2, h3, h4, h5⟩
    simp only [POST, h1, h2, h3, h4, h5, Bool.false_or, Bool.or_self,
      if_false]
    refine ⟨rfl, rfl, rfl, ?_, ?_⟩ <;> intro hfw <;> simp [hfw]

theorem c6_post_validation_and_mirror_witness :
    ((POST demoStore (PostRequest.jsonBody demoNoDecision) true).1.status =
        400 ∧
      ((POST demoStore (PostRequest.jsonBody demoNoDecision)
          true).1.errorMsg).isSome = true ∧
      (POST demoStore (PostRequest.jsonBody demoNoDecision) true).2 =
        demoStore) ∧
    ((POST demoStore (PostRequest.jsonBody demoBody) false).1.status = 200 ∧
      (POST demoStore (PostRequest.jsonBody demoBody) false).1.errorMsg =
        none ∧
      (POST demoStore (PostRequest.jsonBody demoBody) false).2.latestVerdict =
        some demoBody ∧
      (POST demoStore (PostRequest.jsonBody demoBody) false).2.file =
        demoStore.file) := by
  have h1 := (c6_post_validation_and_mirror demoStore demoNoDecision true).1
    (by decide)
  have h2 := (c6_post_validation_and_mirror demoStore demoBody false).2
    (by decide)
  exact ⟨h1, h2.1, h2.2.1, h2.2.2.1, h2.2.2.2.2 rfl⟩

/-- C7: `GET /verdict` returns the persisted file copy when the file
exists and is readable, preferring it over any in-memory copy; with no
file it falls back to the in-memory copy; with neither it responds 404
with an `error` field rather than an empty Verdict. -/
theorem c7_get_prefers_file (st : StoreState) (b v : PostBody) :
    (st.file = FileState.stored b →
      GET st = { status := 200, verdictBody := some b, errorMsg := none,
                 successMsg := none }) ∧
    (st.file = FileState.absent → st.latestVerdict = some v →
      GET st = { status := 200, verdictBody := some v, errorMsg := none,
                 successMsg := none }) ∧
    (st.file = FileState.absent → st.latestVerdict = none →
      GET st = { status := 404, verdictBody := none,
                 errorMsg := some "No verdict available",
                 successMsg := none }) := by
  refine ⟨?_, ?_, ?_⟩
  · intro h
    simp [GET, h]
  · intro h h2
    simp [GET, h, h2]
  · intro h h2
    simp [GET, h, h2]

theorem c7_get_prefers_file_witness :
    GET demoStoreFile =
      { status := 200, verdictBody := some demoBody, errorMsg := none,
        successMsg := none } ∧
    GET demoStoreMem =
      { status := 200, verdictBody := some demoBody, errorMsg := none,
        successMsg := none } ∧
    GET demoStore =
      { status := 404, verdictBody := none,
        errorMsg := some "No verdict available", successMsg := none } :=
  ⟨(c7_get_prefers_file demoStoreFile demoBody demoBody).1 rfl,
   (c7_get_prefers_file demoStoreMem demoBody demoBody).2.1 rfl rfl,
   (c7_get_prefers_file demoStore demoBody demoBody).2.2 rfl rfl⟩

/-- C10: the `POST` presence check uses JavaScript falsiness, so a body
whose `claim`, `truth`, `summary` or `decision` is present but equal to
the empty string is rejected with a 400 just as if absent, with the
store unchanged; while a body whose `conversation` is present but an
empty array (arrays are truthy) passes validation and is accepted. -/
theorem c10_falsy_presence_check (st : StoreState) (fw : Bool)
    (b : PostBody) :
    ((b.claim = some "" ∨ b.truth = some "" ∨ b.summary = some "" ∨
        b.decision = some "") →
      (POST st (PostRequest.jsonBody b) fw).1.status = 400 ∧
      (POST st (PostRequest.jsonBody b) fw).2 = st) ∧
    ((b.conversation = some [] ∧ strFalsy b.claim = false ∧
        strFalsy b.truth = false ∧ strFalsy b.summary = false ∧
        strFalsy b.decision = false) →
      (POST st (PostRequest.jsonBody b) fw).1.status = 200 ∧
      ((POST st (PostRequest.jsonBody b) fw).1.successMsg).isSome = true) := by
  constructor
  · intro h
    rcases h with h | h | h | h <;>
      simp [POST, strFalsy, h]
  · intro ⟨h0, h1, h2, h4, h5⟩
    simp [POST, arrayFalsy, h0, h1, h2, h4, h5]

theorem c10_falsy_presence_check_witness :
    ((POST demoStore (PostRequest.jsonBody demoEmptyClaim) true).1.status =
        400 ∧
      (POST demoStore (PostRequest.jsonBody demoEmptyClaim) true).2 =
        demoStore) ∧
    ((POST demoStore (PostRequest.jsonBody demoBody) true).1.status = 200 ∧
      ((POST demoStore (PostRequest.jsonBody demoBody)
          true).1.successMsg).isSome = true) :=
  ⟨(c10_falsy_presence_check demoStore true demoEmptyClaim).1 (Or.inl rfl),
   (c10_falsy_presence_check demoStore true demoBody).2 (by decide)⟩
